import Mathlib

/-!
Verification development for the miniMaks repository: a Telegram Mini App
with a Fastify CRUD API over Prisma (focuses, tasks, members, assistant
threads), a React web client, and a BullMQ/cron worker that sends Telegram
notifications.

The definitions below are a shallow embedding of the TypeScript source:
  * `apps/api/src/lib/errors.ts`      → `AppError`, `Errors`, `globalErrorHandler`
  * `apps/api/src/lib/openai.ts`      → `cleanFences`, `safeJsonParseWith`, `aiResponseOfContent`
  * `apps/api/src/routes/focuses.ts`  → `createFocusHandler`, `patchFocusHandler`, `deleteFocusHandler`
  * `apps/api/src/routes/tasks.ts`    → `listTasksHandler`, `patchTaskHandler`
  * `apps/api/src/routes/assistant.ts`→ `assistantMessageGate`
  * `apps/worker/src/main.ts`         → `deadlineSelect`, `overdueSelect`, `processNotificationJob`
  * `apps/web/src/App.tsx`            → `toggleNext`, `optimisticToggle`, `toggleTaskFlow`

The relational store is modelled as explicit lists of records; timestamps
are integers (milliseconds); JavaScript `undefined`/`null` optionality is
modelled with `Option` (an outer `Option` for field presence, an inner one
for nullable values); JavaScript string truthiness is modelled by
`jsTruthy` (absent or empty string is falsy).
-/

namespace MiniMaks

/-- JS truthiness of a possibly-absent string: `undefined` and `""` are falsy. -/
def jsTruthy : Option String → Bool
  | none => false
  | some s => !(s = "")

/-! ## Data-model enums (Prisma schema / zod enums) -/

/-- FocusMember.role -/
inductive Role
  | owner
  | member
  deriving DecidableEq, Repr

/-- Task.status: `z.enum(['todo','in_progress','done','canceled'])` -/
inductive TaskStatus
  | todo
  | in_progress
  | done
  | canceled
  deriving DecidableEq, Repr

/-- The string stored in the database / compared against query parameters. -/
def TaskStatus.str : TaskStatus → String
  | .todo => "todo"
  | .in_progress => "in_progress"
  | .done => "done"
  | .canceled => "canceled"

/-- Task.priority: `z.enum(['low','medium','high','urgent'])` -/
inductive TaskPriority
  | low
  | medium
  | high
  | urgent
  deriving DecidableEq, Repr

def TaskPriority.str : TaskPriority → String
  | .low => "low"
  | .medium => "medium"
  | .high => "high"
  | .urgent => "urgent"

/-- Focus.status: `z.enum(['active', 'paused', 'archived'])` -/
inductive FocusStatus
  | active
  | paused
  | archived
  deriving DecidableEq, Repr

/-! ## `apps/api/src/lib/errors.ts` -/

/-- The `ErrorCode` union type of `errors.ts`. -/
inductive ErrorCode
  | validation_error
  | unauthorized
  | forbidden
  | not_found
  | conflict
  | gone
  | trial_expired
  | owner_only
  | not_assignee
  | internal_error
  | ai_error
  deriving DecidableEq, Repr

def ErrorCode.str : ErrorCode → String
  | .validation_error => "validation_error"
  | .unauthorized => "unauthorized"
  | .forbidden => "forbidden"
  | .not_found => "not_found"
  | .conflict => "conflict"
  | .gone => "gone"
  | .trial_expired => "trial_expired"
  | .owner_only => "owner_only"
  | .not_assignee => "not_assignee"
  | .internal_error => "internal_error"
  | .ai_error => "ai_error"

/-- Per-field validation details (zod's `flatten().fieldErrors` shape). -/
abbrev FieldErrors := List (String × List String)

/-- `class AppError extends Error` with its `code`, `httpStatus`, `message`,
and optional `details`. -/
structure AppError where
  code : ErrorCode
  httpStatus : Nat
  message : String
  details : Option FieldErrors := none
  deriving DecidableEq, Repr

/- The `Errors` convenience constructors of `errors.ts`. -/
namespace Errors

def unauthorized (msg : String := "unauthorized") : AppError :=
  ⟨.unauthorized, 401, msg, none⟩

def forbidden (msg : String := "forbidden") : AppError :=
  ⟨.forbidden, 403, msg, none⟩

def ownerOnly : AppError :=
  ⟨.owner_only, 403, "Only the project owner can do this", none⟩

def notAssignee : AppError :=
  ⟨.not_assignee, 403, "Only the task assignee can do this", none⟩

def notFound (entity : String := "Resource") : AppError :=
  ⟨.not_found, 404, entity ++ " not found", none⟩

def conflict (msg : String) : AppError :=
  ⟨.conflict, 409, msg, none⟩

def gone (msg : String) : AppError :=
  ⟨.gone, 410, msg, none⟩

def trialExpired : AppError :=
  ⟨.trial_expired, 402, "Trial period has expired. Please upgrade.", none⟩

def validation (msg : String) (details : Option FieldErrors := none) : AppError :=
  ⟨.validation_error, 422, msg, details⟩

def internal (msg : String := "internal_error") : AppError :=
  ⟨.internal_error, 500, msg, none⟩

def aiError (msg : String) : AppError :=
  ⟨.ai_error, 502, msg, none⟩

end Errors

/-- The error value reaching `globalErrorHandler`: a `ZodError` (carrying
its flattened per-field errors), an `AppError`, or any other thrown error,
which Fastify may or may not have tagged with a `statusCode`
(`(err as FastifyError).statusCode ?? 500`). A plain `Error` has no
`statusCode`, i.e. `fastify none msg`. -/
inductive HandlerError
  | zod (fieldErrors : FieldErrors)
  | app (e : AppError)
  | fastify (statusCode : Option Nat) (message : String)
  deriving DecidableEq, Repr

/-- The JSON error body the handler replies with. -/
structure ApiErrorBody where
  ok : Bool
  code : String
  error : String
  details : Option FieldErrors := none
  deriving DecidableEq, Repr

/-- Result of the global error handler: HTTP status, reply body, and
whether the error was logged (`req.log.error` / `logEvent`). -/
structure HandlerResult where
  status : Nat
  body : ApiErrorBody
  logged : Bool
  deriving DecidableEq, Repr

/-- `globalErrorHandler` of `errors.ts`, branch for branch:
ZodError → 422 validation_error with `flatten().fieldErrors`;
AppError → its `httpStatus`/`code`/`message` (+`details`), logged when
`httpStatus >= 500`; other errors with `statusCode ?? 500 < 500` →
that status with code `request_error`; remaining errors → logged, then
500 `internal_error`. -/
def globalErrorHandler : HandlerError → HandlerResult
  | .zod fieldErrors =>
      { status := 422
        body := { ok := false, code := "validation_error",
                  error := "Invalid request data", details := some fieldErrors }
        logged := false }
  | .app e =>
      { status := e.httpStatus
        body := { ok := false, code := e.code.str, error := e.message,
                  details := e.details }
        logged := decide (e.httpStatus ≥ 500) }
  | .fastify statusCode message =>
      let status := statusCode.getD 500
      if status < 500 then
        { status := status
          body := { ok := false, code := "request_error", error := message,
                    details := none }
          logged := false }
      else
        { status := 500
          body := { ok := false, code := "internal_error",
                    error := "Something went wrong. Please try again.",
                    details := none }
          logged := true }

/-! ## Store records (Prisma models used by the routes) -/

/-- A `FocusMember` row; `focus_id_user_id` is the composite unique key. -/
structure FocusMemberRec where
  focus_id : String
  user_id : String
  role : Role
  deriving DecidableEq, Repr

/-- A `Focus` row (the fields touched by `focuses.ts`). -/
structure Focus where
  id : String
  owner_user_id : String
  title : String
  description : Option String := none
  stage : Option String := none
  deadline_at : Option Int := none
  success_metric : Option String := none
  budget : Option Int := none
  niche : Option String := none
  status : FocusStatus := .active
  deriving DecidableEq, Repr

/-- An `AssistantThread` row (the fields used by the routes). -/
structure ThreadRec where
  id : String
  focus_id : String
  deriving DecidableEq, Repr

/-- A `Task` row (the fields touched by `tasks.ts`). -/
structure Task where
  id : String
  focus_id : String
  created_by_user_id : String
  title : String
  description : Option String := none
  priority : TaskPriority := .medium
  status : TaskStatus := .todo
  due_at : Option Int := none
  assigned_to_user_id : Option String := none
  completed_at : Option Int := none
  deriving DecidableEq, Repr

/-- The slice of the relational store the verified routes read and write. -/
structure St where
  focuses : List Focus
  members : List FocusMemberRec
  threads : List ThreadRec
  tasks : List Task
  deriving DecidableEq, Repr

/-- `prisma.focusMember.findUnique({ where: { focus_id_user_id: … } })`. -/
def findMember (st : St) (focusId userId : String) : Option FocusMemberRec :=
  st.members.find? fun m => m.focus_id = focusId && m.user_id = userId

/-- `prisma.focus.findUnique({ where: { id } })`. -/
def findFocus (st : St) (focusId : String) : Option Focus :=
  st.focuses.find? fun f => f.id = focusId

/-- `prisma.task.findUnique({ where: { id } })`. -/
def findTask (st : St) (taskId : String) : Option Task :=
  st.tasks.find? fun t => t.id = taskId

/-- `prisma.assistantThread.findFirst({ where: { focus_id }, orderBy: { created_at: 'asc' } })`;
the thread list is kept in creation order. -/
def findFirstThread (st : St) (focusId : String) : Option ThreadRec :=
  st.threads.find? fun th => th.focus_id = focusId

/-! ## `apps/api/src/routes/focuses.ts` -/

/-- Parsed body of `POST /focuses` (`createFocusSchema`): `title` required,
the rest optional and nullable. -/
structure CreateFocusBody where
  title : String
  description : Option String := none
  stage : Option String := none
  deadline_at : Option Int := none
  success_metric : Option String := none
  budget : Option Int := none
  niche : Option String := none
  deriving DecidableEq, Repr

/-- Parsed body of `PATCH /focuses/:id` (`patchFocusSchema = createFocusSchema.partial()`
extended with `status`): the outer `Option` is field presence
(`body.x !== undefined`), the inner one nullability. -/
structure PatchFocusBody where
  title : Option String := none
  description : Option (Option String) := none
  stage : Option (Option String) := none
  deadline_at : Option (Option Int) := none
  success_metric : Option (Option String) := none
  budget : Option (Option Int) := none
  niche : Option (Option String) := none
  status : Option FocusStatus := none
  deriving DecidableEq, Repr

/-- The `data` object of `prisma.focus.update`: each spread
`...(body.x !== undefined && { x: body.x })` keeps the old value when the
field is absent. -/
def applyFocusPatch (f : Focus) (b : PatchFocusBody) : Focus :=
  { f with
    title := b.title.getD f.title
    description := b.description.getD f.description
    stage := b.stage.getD f.stage
    deadline_at := b.deadline_at.getD f.deadline_at
    success_metric := b.success_metric.getD f.success_metric
    budget := b.budget.getD f.budget
    niche := b.niche.getD f.niche
    status := b.status.getD f.status }

/-- Replace the focus with the given id (`prisma.focus.update`). -/
def writeFocus (st : St) (f : Focus) : St :=
  { st with focuses := st.focuses.map fun g => if g.id = f.id then f else g }

/-- `POST /focuses`: trial gate, then a single nested create producing the
focus row, one member row (`{ user_id: creator, role: 'owner' }`) and one
empty assistant thread. `newFocusId`/`newThreadId` stand for the ids the
database generates. On a thrown error the state is returned unchanged. -/
def createFocusHandler (st : St) (userId : String) (active : Bool)
    (body : CreateFocusBody) (newFocusId newThreadId : String) :
    St × Except AppError Focus :=
  if !active then (st, .error Errors.trialExpired)
  else
    let focus : Focus :=
      { id := newFocusId
        owner_user_id := userId
        title := body.title
        description := body.description
        stage := body.stage
        deadline_at := body.deadline_at
        success_metric := body.success_metric
        budget := body.budget
        niche := body.niche
        status := .active }
    let st' : St :=
      { st with
        focuses := focus :: st.focuses
        members := ⟨newFocusId, userId, .owner⟩ :: st.members
        threads := ⟨newThreadId, newFocusId⟩ :: st.threads }
    (st', .ok focus)

/-- `PATCH /focuses/:id`: trial gate, membership lookup (`forbidden` when
absent), owner check (`ownerOnly`), then `prisma.focus.update`; the update
throws (modelled `internal`) when the row is missing. -/
def patchFocusHandler (st : St) (userId focusId : String) (active : Bool)
    (body : PatchFocusBody) : St × Except AppError Focus :=
  if !active then (st, .error Errors.trialExpired)
  else
    match findMember st focusId userId with
    | none => (st, .error (Errors.forbidden))
    | some m =>
      if m.role ≠ .owner then (st, .error Errors.ownerOnly)
      else
        match findFocus st focusId with
        | none => (st, .error (Errors.internal "record_not_found"))
        | some f =>
          let f' := applyFocusPatch f body
          (writeFocus st f', .ok f')

/-- `DELETE /focuses/:id`: membership lookup, owner check, then
`prisma.focus.delete` (throws, modelled `internal`, when the row is
missing). There is no trial gate on this route. -/
def deleteFocusHandler (st : St) (userId focusId : String) :
    St × Except AppError Unit :=
  match findMember st focusId userId with
  | none => (st, .error (Errors.forbidden))
  | some m =>
    if m.role ≠ .owner then (st, .error Errors.ownerOnly)
    else
      match findFocus st focusId with
      | none => (st, .error (Errors.internal "record_not_found"))
      | some _ =>
        ({ st with focuses := st.focuses.filter fun f => f.id ≠ focusId }, .ok ())

/-! ## `apps/api/src/routes/tasks.ts` -/

/-- Raw query string of `GET /focuses/:id/tasks` (`req.query`): each
parameter is an arbitrary string or absent. -/
structure TaskQuery where
  assigned : Option String := none
  status : Option String := none
  priority : Option String := none
  deriving DecidableEq, Repr

/-- The prisma `where` object built by the list route, as a predicate:
`focus_id` always; `assigned_to_user_id = userId` unless
`q.assigned !== 'all'` fails, i.e. unless the parameter is exactly `all`;
`status`/`priority` equality filters when the parameter is truthy. -/
def taskListPred (focusId userId : String) (q : TaskQuery) (t : Task) : Bool :=
  t.focus_id = focusId
    && (q.assigned = some "all" || t.assigned_to_user_id = some userId)
    && (!jsTruthy q.status || some t.status.str = q.status)
    && (!jsTruthy q.priority || some t.priority.str = q.priority)

/-- `GET /focuses/:id/tasks`: membership check then
`prisma.task.findMany({ where })`. Ordering (`due_at asc, created_at desc`)
is irrelevant to the verified claims and the store order is kept. -/
def listTasksHandler (st : St) (userId focusId : String) (q : TaskQuery) :
    Except AppError (List Task) :=
  match findMember st focusId userId with
  | none => .error (Errors.forbidden)
  | some _ => .ok (st.tasks.filter (taskListPred focusId userId q))

/-- Parsed body of `PATCH /tasks/:id` (`patchTaskSchema = createTaskSchema.partial()`). -/
structure PatchTaskBody where
  title : Option String := none
  description : Option (Option String) := none
  priority : Option TaskPriority := none
  status : Option TaskStatus := none
  due_at : Option (Option Int) := none
  assigned_to_user_id : Option (Option String) := none
  deriving DecidableEq, Repr

/-- Member (non-owner) branch of the update `data`: only `status`
(with `completed_at` set to now exactly when the new status is `done`),
`due_at` and `description` are writable. `...(body.status && …)` is
presence of the enum field. -/
def memberTaskUpdate (t : Task) (b : PatchTaskBody) (now : Int) : Task :=
  { t with
    status := b.status.getD t.status
    completed_at :=
      match b.status with
      | some s => if s = .done then some now else none
      | none => t.completed_at
    due_at := b.due_at.getD t.due_at
    description := b.description.getD t.description }

/-- Owner branch of the update `data`: every field of the patch schema is
writable; `completed_at` is again set to now exactly when the new status
is `done`. -/
def ownerTaskUpdate (t : Task) (b : PatchTaskBody) (now : Int) : Task :=
  { t with
    title := b.title.getD t.title
    description := b.description.getD t.description
    priority := b.priority.getD t.priority
    status := b.status.getD t.status
    completed_at :=
      match b.status with
      | some s => if s = .done then some now else none
      | none => t.completed_at
    due_at := b.due_at.getD t.due_at
    assigned_to_user_id := b.assigned_to_user_id.getD t.assigned_to_user_id }

/-- Replace the task with the given id (`prisma.task.update`). -/
def writeTask (st : St) (t : Task) : St :=
  { st with tasks := st.tasks.map fun u => if u.id = t.id then t else u }

/-- `PATCH /tasks/:id`: trial gate, task lookup (`notFound`), membership
on the task's focus (`forbidden`), then: a non-owner member may only touch
their own task (`notAssignee` otherwise) through the restricted update;
an owner runs the full update. `now` is the `new Date()` of the handler. -/
def patchTaskHandler (st : St) (userId taskId : String) (active : Bool)
    (body : PatchTaskBody) (now : Int) : St × Except AppError Task :=
  if !active then (st, .error Errors.trialExpired)
  else
    match findTask st taskId with
    | none => (st, .error (Errors.notFound "Task"))
    | some t =>
      match findMember st t.focus_id userId with
      | none => (st, .error (Errors.forbidden))
      | some m =>
        if m.role ≠ .owner then
          if t.assigned_to_user_id ≠ some userId then
            (st, .error Errors.notAssignee)
          else
            let t' := memberTaskUpdate t body now
            (writeTask st t', .ok t')
        else
          let t' := ownerTaskUpdate t body now
          (writeTask st t', .ok t')

/-! ## `apps/api/src/routes/assistant.ts` (`POST /focuses/:id/assistant/message`) -/

/-- Outcome of the guards at the top of the assistant message route, up to
and including the thread lookup. `proceed` means the handler goes on to
store the user message and call the assistant. -/
inductive AssistantGate
  | trialExpired
  | forbidden
  | missingThread
  | proceed (threadId : String)
  deriving DecidableEq, Repr

/-- The guard sequence of `POST /focuses/:id/assistant/message`:
402 `trial_expired` when inactive, 403 `forbidden` for non-members,
500 `missing_thread` when the focus has no assistant thread. -/
def assistantMessageGate (st : St) (userId focusId : String) (active : Bool) :
    AssistantGate :=
  if !active then .trialExpired
  else
    match findMember st focusId userId with
    | none => .forbidden
    | some _ =>
      match findFirstThread st focusId with
      | none => .missingThread
      | some th => .proceed th.id

/-! ## `apps/worker/src/main.ts` -/

/-- A `User` row as seen by the worker (`assigned_to` include). -/
structure WUser where
  id : String
  tg_id : Option String := none
  deriving DecidableEq, Repr

/-- A task as returned by the worker's `prisma.task.findMany` with its
`assigned_to` user and focus title included. -/
structure WTask where
  id : String
  title : String
  status : TaskStatus
  due_at : Option Int := none
  assigned_to : Option WUser := none
  focusTitle : String := ""
  deriving DecidableEq, Repr

/-- Milliseconds in a day: `setDate(getDate() + k)` shifts a timestamp by
`k` whole days. -/
def msPerDay : Int := 86400000

/-- `DEADLINE_DAYS = Number(process.env.DEADLINE_REMINDER_DAYS ?? 1)`:
the env override or the default of 1. -/
def deadlineDays (envVal : Option Int) : Int := envVal.getD 1

/-- Cron expression of the deadline reminder job (9:00 UTC daily). -/
def deadlineCronExpr : String := "0 9 * * *"

/-- Cron expression of the overdue job (10:00 UTC daily). -/
def overdueCronExpr : String := "0 10 * * *"

/-- The `where` clause of the deadline reminder query:
`due_at: { gte: now + (days-1)d, lte: now + (days+1)d }`,
`status: { notIn: ['done','canceled'] }`, `assigned_to: { isNot: null }`. -/
def deadlineSelect (now days : Int) (t : WTask) : Bool :=
  (match t.due_at with
   | some d =>
       decide (now + (days - 1) * msPerDay ≤ d)
         && decide (d ≤ now + (days + 1) * msPerDay)
   | none => false)
    && !(t.status = .done || t.status = .canceled)
    && t.assigned_to.isSome

/-- The `where` clause of the overdue query: `due_at: { lt: now }` with the
same status and assignee filters. -/
def overdueSelect (now : Int) (t : WTask) : Bool :=
  (match t.due_at with
   | some d => decide (d < now)
   | none => false)
    && !(t.status = .done || t.status = .canceled)
    && t.assigned_to.isSome

/-- `if (!user.tg_id) continue;` — a message is attempted exactly for
tasks whose assignee has a truthy `tg_id`. -/
def hasTg (t : WTask) : Bool :=
  match t.assigned_to with
  | some u => jsTruthy u.tg_id
  | none => false

/-- The tasks the deadline job sends a Telegram message for: the selected
tasks whose assignee has a `tg_id`, in query order. -/
def deadlineMessaged (now days : Int) (tasks : List WTask) : List WTask :=
  (tasks.filter (deadlineSelect now days)).filter hasTg

/-- The tasks the overdue job sends a Telegram message for. -/
def overdueMessaged (now : Int) (tasks : List WTask) : List WTask :=
  (tasks.filter (overdueSelect now)).filter hasTg

/-- A `NotificationLog` row. -/
structure NotifLog where
  id : String
  user_id : String
  type : String
  status : String
  sent_at : Option Int := none
  error : Option String := none
  deriving DecidableEq, Repr

/-- The data of a job on the `notifications` queue
(`const { tg_id, text, type, user_id } = job.data`). -/
structure NotifJob where
  tg_id : String
  text : String
  type : String
  user_id : Option String := none
  deriving DecidableEq, Repr

/-- `prisma.notificationLog.updateMany({ where: { user_id, status: 'queued', type }, data })`. -/
def updateQueuedLogs (logs : List NotifLog) (uid ty : String)
    (f : NotifLog → NotifLog) : List NotifLog :=
  logs.map fun l =>
    if l.user_id = uid && l.status = "queued" && l.type = ty then f l else l

/-- The notification `Worker` processor. `sendOutcome` is the result of
`bot.telegram.sendMessage`: `none` for success, `some msg` when it throws
with message `msg`. On success, a truthy `user_id` marks that user's
queued rows of the job's type as sent (with `sent_at := now`); on failure
those rows are marked failed with the error message and the error is
rethrown. -/
def processNotificationJob (sendOutcome : Option String) (now : Int)
    (job : NotifJob) (logs : List NotifLog) :
    List NotifLog × Except String Unit :=
  match sendOutcome with
  | none =>
    let logs' :=
      if jsTruthy job.user_id then
        updateQueuedLogs logs (job.user_id.getD "") job.type
          fun l => { l with status := "sent", sent_at := some now }
      else logs
    (logs', .ok ())
  | some errMsg =>
    let logs' :=
      if jsTruthy job.user_id then
        updateQueuedLogs logs (job.user_id.getD "") job.type
          fun l => { l with status := "failed", error := some errMsg }
      else logs
    (logs', .error errMsg)

/-! ## `apps/web/src/App.tsx` (`toggleTask`) -/

/-- The client-side task value (`Task` of `api.ts`): status is the raw
string. Only the fields `toggleTask` touches are modelled; `rest` stands
for all the other fields carried along by the spreads. -/
structure WebTask where
  id : String
  status : String
  rest : String := ""
  deriving DecidableEq, Repr

/-- `const next = t.status === 'done' ? 'todo' : 'done';` -/
def toggleNext (t : WebTask) : String :=
  if t.status = "done" then "todo" else "done"

/-- The optimistic `setTasks`: every entry with the toggled id gets the
new status (`{ ...x, status: next }`). -/
def optimisticToggle (tasks : List WebTask) (t : WebTask) : List WebTask :=
  tasks.map fun x => if x.id = t.id then { x with status := toggleNext t } else x

/-- The success `setTasks`: entries with the toggled id are replaced by
the server's returned task. -/
def applyServerTask (tasks : List WebTask) (tid : String) (updated : WebTask) :
    List WebTask :=
  tasks.map fun x => if x.id = tid then updated else x

/-- The failure `setTasks`: entries with the toggled id are restored to
the captured pre-toggle value `t`. -/
def rollbackToggle (tasks : List WebTask) (t : WebTask) : List WebTask :=
  tasks.map fun x => if x.id = t.id then t else x

/-- `toggleTask` end to end: the optimistic state shown before the API
call, and the final state after the call either returns the updated task
or throws. -/
def toggleTaskFlow (tasks : List WebTask) (t : WebTask)
    (apiResult : Except String WebTask) : List WebTask × List WebTask :=
  let optimistic := optimisticToggle tasks t
  match apiResult with
  | .ok updated => (optimistic, applyServerTask optimistic t.id updated)
  | .error _ => (optimistic, rollbackToggle optimistic t)

/-! ## `apps/api/src/lib/openai.ts`

`safeJsonParse` and the response handling of `callBusinessAssistant` are
parameterised over the JSON parser so the verified properties hold for any
parser; `jsonParse` below is a concrete executable model of `JSON.parse`
(restricted to the common escape sequences, which suffices for concrete
witnesses). -/

/-- A parsed JavaScript/JSON value. Numbers keep their source lexeme; no
verified claim inspects numeric values. -/
inductive JsValue
  | jnull
  | jbool (b : Bool)
  | jnum (lexeme : String)
  | jstr (s : String)
  | jarr (elems : List JsValue)
  | jobj (fields : List (String × JsValue))

/-- JSON / JS whitespace (the common subset: space, tab, LF, CR). -/
def isJsWs (c : Char) : Bool :=
  c = ' ' || c = '\t' || c = '\n' || c = '\r'

def skipWs (cs : List Char) : List Char := cs.dropWhile isJsWs

def lbraceC : Char := Char.ofNat 123

def rbraceC : Char := Char.ofNat 125

/-- Body of a JSON string literal after the opening quote: returns the
decoded characters and the input following the closing quote. -/
def parseStrChars : List Char → Option (List Char × List Char)
  | [] => none
  | '"' :: rest => some ([], rest)
  | '\\' :: [] => none
  | '\\' :: e :: rest2 =>
    let ec : Option Char :=
      if e = '"' then some '"'
      else if e = '\\' then some '\\'
      else if e = '/' then some '/'
      else if e = 'n' then some '\n'
      else if e = 't' then some '\t'
      else if e = 'r' then some '\r'
      else if e = 'b' then some (Char.ofNat 8)
      else if e = 'f' then some (Char.ofNat 12)
      else none
    match ec with
    | some c => (parseStrChars rest2).map fun p => (c :: p.1, p.2)
    | none => none
  | c :: rest => (parseStrChars rest).map fun p => (c :: p.1, p.2)

def spanDigits (cs : List Char) : List Char × List Char :=
  (cs.takeWhile Char.isDigit, cs.dropWhile Char.isDigit)

/-- A JSON number lexeme: optional sign, digits, optional fraction,
optional exponent. Returns the lexeme and the remaining input. -/
def parseNumberLex (cs : List Char) : Option (List Char × List Char) :=
  let (neg, cs1) :=
    match cs with
    | '-' :: rest => ([('-' : Char)], rest)
    | _ => (([] : List Char), cs)
  let (ds, cs2) := spanDigits cs1
  if ds = [] then none
  else
    let (frac, cs3) :=
      match cs2 with
      | '.' :: rest =>
        let (fs, r) := spanDigits rest
        if fs = [] then (([] : List Char), cs2) else ('.' :: fs, r)
      | _ => (([] : List Char), cs2)
    let (ex, cs4) :=
      match cs3 with
      | e :: rest =>
        if e = 'e' || e = 'E' then
          let (sgn, r1) :=
            match rest with
            | c :: r => if c = '+' || c = '-' then ([c], r) else (([] : List Char), rest)
            | [] => (([] : List Char), rest)
          let (es, r2) := spanDigits r1
          if es = [] then (([] : List Char), cs3) else (e :: (sgn ++ es), r2)
        else (([] : List Char), cs3)
      | [] => (([] : List Char), cs3)
    some (neg ++ ds ++ frac ++ ex, cs4)

mutual

/-- One JSON value, fuel-bounded recursive descent. -/
def parseValue : Nat → List Char → Option (JsValue × List Char)
  | 0, _ => none
  | fuel + 1, cs =>
    let cs := skipWs cs
    if ("null".toList).isPrefixOf cs then some (.jnull, cs.drop 4)
    else if ("true".toList).isPrefixOf cs then some (.jbool true, cs.drop 4)
    else if ("false".toList).isPrefixOf cs then some (.jbool false, cs.drop 5)
    else
      match cs with
      | [] => none
      | c :: rest =>
        if c = '"' then
          (parseStrChars rest).map fun p => (JsValue.jstr (String.mk p.1), p.2)
        else if c = '[' then
          match skipWs rest with
          | ']' :: rest2 => some (.jarr [], rest2)
          | _ => parseArrElems fuel rest []
        else if c = lbraceC then
          match skipWs rest with
          | c2 :: rest2 =>
            if c2 = rbraceC then some (.jobj [], rest2)
            else parseObjFields fuel rest []
          | [] => none
        else
          (parseNumberLex cs).map fun p => (JsValue.jnum (String.mk p.1), p.2)

/-- Comma-separated array elements up to `]`. -/
def parseArrElems : Nat → List Char → List JsValue → Option (JsValue × List Char)
  | 0, _, _ => none
  | fuel + 1, cs, acc =>
    match parseValue fuel cs with
    | none => none
    | some (v, rest) =>
      match skipWs rest with
      | ',' :: rest2 => parseArrElems fuel rest2 (v :: acc)
      | ']' :: rest2 => some (.jarr (v :: acc).reverse, rest2)
      | _ => none

/-- Comma-separated `"key": value` members up to the closing brace. -/
def parseObjFields : Nat → List Char → List (String × JsValue) →
    Option (JsValue × List Char)
  | 0, _, _ => none
  | fuel + 1, cs, acc =>
    match skipWs cs with
    | [] => none
    | c :: rest =>
      if c = '"' then
        match parseStrChars rest with
        | none => none
        | some (key, rest2) =>
          match skipWs rest2 with
          | ':' :: rest3 =>
            match parseValue fuel rest3 with
            | none => none
            | some (v, rest4) =>
              match skipWs rest4 with
              | ',' :: rest5 => parseObjFields fuel rest5 ((String.mk key, v) :: acc)
              | c2 :: rest5 =>
                if c2 = rbraceC then
                  some (.jobj ((String.mk key, v) :: acc).reverse, rest5)
                else none
              | [] => none
          | _ => none
      else none

end

/-- Model of `JSON.parse`: succeeds exactly when the whole string is one
JSON value (up to surrounding whitespace). -/
def jsonParse (s : String) : Option JsValue :=
  match parseValue (2 * s.length + 2) s.toList with
  | some (v, rest) => if skipWs rest = [] then some v else none
  | none => none

/-- `String.prototype.trim` (over the modelled whitespace set), on the
character list. -/
def trimChars (cs : List Char) : List Char :=
  ((cs.dropWhile isJsWs).reverse.dropWhile isJsWs).reverse

/-- The cleanup applied between the two parse attempts of `safeJsonParse`:
trim, strip a leading ```` ```json ```` (case-insensitive, `\s*` eating
the following whitespace) then a leading ```` ``` ````, strip a trailing
```` ``` ````, and trim again. -/
def cleanFences (text : String) : String :=
  let cs0 := trimChars text.toList
  let cs1 :=
    if (cs0.take 7).map Char.toLower = "```json".toList then
      (cs0.drop 7).dropWhile isJsWs
    else cs0
  let cs2 :=
    if cs1.take 3 = "```".toList then (cs1.drop 3).dropWhile isJsWs else cs1
  let cs3 :=
    if (cs2.reverse.take 3).reverse = "```".toList then
      (cs2.reverse.drop 3).reverse
    else cs2
  String.mk (trimChars cs3)

/-- `safeJsonParse`: direct parse first, then one retry on the cleaned
text, else `null`. -/
def safeJsonParseWith (parse : String → Option JsValue) (text : String) :
    Option JsValue :=
  match parse text with
  | some v => some v
  | none => parse (cleanFences text)

/-- Property access `v.key` on a parsed value: defined on objects, taking
the last binding (`JSON.parse` keeps the last duplicate key), `undefined`
(`none`) otherwise. -/
def JsValue.getField : JsValue → String → Option JsValue
  | .jobj fields, k => ((fields.filter fun p => p.fst = k).getLast?).map Prod.snd
  | _, _ => none

/-- The `AiResponse` produced from a model reply. `tasks` and
`followup_questions` carry the raw parsed array elements. -/
structure AiResponse where
  reply : String
  tasks : Option (List JsValue) := none
  followup_questions : Option (List JsValue) := none

/-- The literal fallback reply of `callBusinessAssistant`
(`content || 'Не удалось разобрать ответ ассистента.'`). -/
def fallbackReplyText : String := "Не удалось разобрать ответ ассистента."

/-- The fallback return of `callBusinessAssistant`:
`{ reply: content || 'Не удалось разобрать ответ ассистента.' }`. -/
def aiFallback (content : String) : AiResponse :=
  { reply := if content = "" then fallbackReplyText else content }

/-- Building the `AiResponse` from the outcome of `safeJsonParse`: when
`parsed.reply` is a string, take it (tasks / followup_questions pass
through exactly when they parsed as arrays); otherwise the fallback. -/
def aiOfParsed (content : String) : Option JsValue → AiResponse
  | some v =>
    match v.getField "reply" with
    | some (.jstr r) =>
      { reply := r
        tasks :=
          match v.getField "tasks" with
          | some (.jarr xs) => some xs
          | _ => none
        followup_questions :=
          match v.getField "followup_questions" with
          | some (.jarr xs) => some xs
          | _ => none }
    | _ => aiFallback content
  | none => aiFallback content

/-- Lines 61–72 of `openai.ts`: parse the assistant content with
`safeJsonParse` and build the response. -/
def aiResponseOfContent (parse : String → Option JsValue) (content : String) :
    AiResponse :=
  aiOfParsed content (safeJsonParseWith parse content)

/-! ## Theorems -/

/-- C3, as stated in the spec, is false: an error that is neither a
`ZodError` nor an `AppError` but carries an HTTP `statusCode` below 500
(e.g. Fastify's own 404 for an unknown route) is NOT converted to 500
`internal_error` with logging — it is answered with its own status and
code `request_error`, unlogged. -/
theorem C3_counterexample :
    (globalErrorHandler (.fastify (some 404) "Route not found")).status = 404 ∧
    (globalErrorHandler (.fastify (some 404) "Route not found")).body.code
      = "request_error" ∧
    (globalErrorHandler (.fastify (some 404) "Route not found")).logged = false ∧
    (globalErrorHandler (.fastify (some 404) "Route not found")).status ≠ 500 ∧
    (globalErrorHandler (.fastify (some 404) "Route not found")).body.code
      ≠ "internal_error" := by
  refine ⟨rfl, rfl, rfl, by decide, by decide⟩

/-- C3 (amended): the global handler maps every ZodError to 422
`validation_error` with the per-field details, every AppError to its
declared `httpStatus`/`code`/`message`, every other error whose
`statusCode` (defaulted to 500) is below 500 to that status with code
`request_error` without logging, and every remaining error to 500
`internal_error` after logging. -/
theorem C3_error_mapping (e : MiniMaks.HandlerError) :
    (∀ fe, e = .zod fe →
      (globalErrorHandler e).status = 422 ∧
      (globalErrorHandler e).body.code = "validation_error" ∧
      (globalErrorHandler e).body.details = some fe ∧
      (globalErrorHandler e).logged = false) ∧
    (∀ a, e = .app a →
      (globalErrorHandler e).status = a.httpStatus ∧
      (globalErrorHandler e).body.code = a.code.str ∧
      (globalErrorHandler e).body.error = a.message ∧
      (globalErrorHandler e).logged = decide (a.httpStatus ≥ 500)) ∧
    (∀ sc msg, e = .fastify sc msg → sc.getD 500 < 500 →
      (globalErrorHandler e).status = sc.getD 500 ∧
      (globalErrorHandler e).body.code = "request_error" ∧
      (globalErrorHandler e).logged = false) ∧
    (∀ sc msg, e = .fastify sc msg → ¬ sc.getD 500 < 500 →
      (globalErrorHandler e).status = 500 ∧
      (globalErrorHandler e).body.code = "internal_error" ∧
      (globalErrorHandler e).logged = true) := by
  refine ⟨?_, ?_, ?_, ?_⟩
  · rintro fe rfl
    exact ⟨rfl, rfl, rfl, rfl⟩
  · rintro a rfl
    exact ⟨rfl, rfl, rfl, rfl⟩
  · rintro sc msg rfl hlt
    simp [globalErrorHandler, if_pos hlt]
  · rintro sc msg rfl hge
    simp [globalErrorHandler, if_neg hge]

/-- Concrete instantiation of `C3_error_mapping` on all four branches. -/
theorem C3_error_mapping_witness :
    (globalErrorHandler (.zod [("title", ["Required"])])).status = 422 ∧
    (globalErrorHandler (.app Errors.ownerOnly)).status = 403 ∧
    (globalErrorHandler (.fastify (some 404) "x")).body.code = "request_error" ∧
    (globalErrorHandler (.fastify none "boom")).body.code = "internal_error" :=
  ⟨((C3_error_mapping (.zod [("title", ["Required"])])).1 _ rfl).1,
   ((C3_error_mapping (.app Errors.ownerOnly)).2.1 _ rfl).1,
   ((C3_error_mapping (.fastify (some 404) "x")).2.2.1 (some 404) "x" rfl
      (by decide)).2.1,
   ((C3_error_mapping (.fastify none "boom")).2.2.2 none "boom" rfl
      (by decide)).2.1⟩

/-- A two-user store used by the concrete counterexamples: `u0` owns focus
`f1`, `u2` is a plain member, `u1` is not a member. Task `t1` of `f1` is
assigned to `u2`. -/
def cexSt : St :=
  { focuses := [{ id := "f1", owner_user_id := "u0", title := "Shop" }]
    members := [⟨"f1", "u0", .owner⟩, ⟨"f1", "u2", .member⟩]
    threads := [⟨"th1", "f1"⟩]
    tasks := [{ id := "t1", focus_id := "f1", created_by_user_id := "u0",
                title := "Call supplier", assigned_to_user_id := some "u2" }] }

/-- C1, as stated, is false: `PATCH /focuses/:id` checks the subscription
before membership, so a non-member whose trial has expired gets 402
`trial_expired`, not 403 `forbidden`. -/
theorem C1_counterexample :
    findMember cexSt "f1" "u1" = none ∧
    patchFocusHandler cexSt "u1" "f1" false {} = (cexSt, .error Errors.trialExpired) ∧
    Errors.trialExpired.httpStatus = 402 ∧
    Errors.trialExpired.code ≠ .forbidden := by
  refine ⟨rfl, rfl, rfl, by decide⟩

/-- C1 (amended): a focus is patched or deleted only by an owner member;
non-members get `forbidden` (403) and non-owner members get `owner_only`
(403) — for PATCH under the proviso that the requester's subscription is
active (otherwise the trial gate answers `trial_expired` 402 first); every
failing request leaves the store unchanged. -/
theorem C1_focus_owner_only (st : St) (uid fid : String) (active : Bool)
    (body : PatchFocusBody) :
    (∀ st' f, patchFocusHandler st uid fid active body = (st', .ok f) →
      ∃ m, findMember st fid uid = some m ∧ m.role = .owner) ∧
    (∀ st' r, deleteFocusHandler st uid fid = (st', .ok r) →
      ∃ m, findMember st fid uid = some m ∧ m.role = .owner) ∧
    (active = true → findMember st fid uid = none →
      patchFocusHandler st uid fid active body = (st, .error (Errors.forbidden))) ∧
    (findMember st fid uid = none →
      deleteFocusHandler st uid fid = (st, .error (Errors.forbidden))) ∧
    (∀ m, active = true → findMember st fid uid = some m → m.role ≠ .owner →
      patchFocusHandler st uid fid active body = (st, .error Errors.ownerOnly)) ∧
    (∀ m, findMember st fid uid = some m → m.role ≠ .owner →
      deleteFocusHandler st uid fid = (st, .error Errors.ownerOnly)) ∧
    (∀ e, (patchFocusHandler st uid fid active body).2 = .error e →
      (patchFocusHandler st uid fid active body).1 = st) ∧
    (∀ e, (deleteFocusHandler st uid fid).2 = .error e →
      (deleteFocusHandler st uid fid).1 = st) ∧
    (Errors.forbidden).httpStatus = 403 ∧ Errors.ownerOnly.httpStatus = 403 := by
  constructor
  · intro st' f h
    unfold patchFocusHandler at h
    cases active with
    | false => simp at h
    | true =>
      simp only [Bool.not_true, Bool.false_eq_true, if_false] at h
      cases hm : findMember st fid uid with
      | none => rw [hm] at h; simp at h
      | some m =>
        rw [hm] at h
        by_cases hr : m.role = .owner
        · exact ⟨m, rfl, hr⟩
        · exfalso; simp [hr] at h
  constructor
  · intro st' r h
    unfold deleteFocusHandler at h
    cases hm : findMember st fid uid with
    | none => rw [hm] at h; simp at h
    | some m =>
      rw [hm] at h
      by_cases hr : m.role = .owner
      · exact ⟨m, rfl, hr⟩
      · exfalso; simp [hr] at h
  constructor
  · rintro rfl hm
    unfold patchFocusHandler
    simp [hm]
  constructor
  · intro hm
    unfold deleteFocusHandler
    simp [hm]
  constructor
  · rintro m rfl hm hr
    unfold patchFocusHandler
    simp [hm, hr]
  constructor
  · intro m hm hr
    unfold deleteFocusHandler
    simp [hm, hr]
  constructor
  · intro e h
    unfold patchFocusHandler at h ⊢
    cases active with
    | false => rfl
    | true =>
      simp only [Bool.not_true, Bool.false_eq_true, if_false] at h ⊢
      cases hm : findMember st fid uid with
      | none => simp [hm]
      | some m =>
        rw [hm] at h
        by_cases hr : m.role = .owner
        · simp only [hr, ne_eq, not_true_eq_false, if_false] at h ⊢
          cases hf : findFocus st fid with
          | none => simp [hf]
          | some f => rw [hf] at h; simp at h
        · simp [hr]
  constructor
  · intro e h
    unfold deleteFocusHandler at h ⊢
    cases hm : findMember st fid uid with
    | none => simp [hm]
    | some m =>
      rw [hm] at h
      by_cases hr : m.role = .owner
      · simp only [hr, ne_eq, not_true_eq_false, if_false] at h ⊢
        cases hf : findFocus st fid with
        | none => simp [hf]
        | some f => rw [hf] at h; simp at h
      · simp [hr]
  exact ⟨rfl, rfl⟩

/-- Concrete instantiation of `C1_focus_owner_only`: the non-member `u1`
and the plain member `u2` are both rejected with their 403 codes. -/
theorem C1_focus_owner_only_witness :
    patchFocusHandler cexSt "u1" "f1" true {} = (cexSt, .error (Errors.forbidden)) ∧
    deleteFocusHandler cexSt "u2" "f1" = (cexSt, .error Errors.ownerOnly) :=
  ⟨(C1_focus_owner_only cexSt "u1" "f1" true {}).2.2.1 rfl rfl,
   (C1_focus_owner_only cexSt "u2" "f1" true {}).2.2.2.2.2.1
     ⟨"f1", "u2", .member⟩ rfl (by decide)⟩

/-- C2, as stated, is false: `PATCH /tasks/:id` checks the subscription
before anything else, so even the task's own assignee (`u2`, a member of
the focus) is answered 402 `trial_expired` when inactive, and no status
update is applied; a fortiori a non-assignee is not answered
`not_assignee` then. -/
theorem C2_counterexample :
    findTask cexSt "t1" = some (cexSt.tasks.get ⟨0, by decide⟩) ∧
    findMember cexSt "f1" "u2" = some ⟨"f1", "u2", .member⟩ ∧
    (cexSt.tasks.get ⟨0, by decide⟩).assigned_to_user_id = some "u2" ∧
    patchTaskHandler cexSt "u2" "t1" false { status := some .done } 0
      = (cexSt, .error Errors.trialExpired) ∧
    Errors.trialExpired.code ≠ .not_assignee := by
  refine ⟨rfl, rfl, rfl, rfl, by decide⟩

/-- C2 (amended): on a `PATCH /tasks/:id` for an existing task by a member
of its focus whose subscription is active (otherwise the trial gate
answers `trial_expired` 402 with the task unchanged), a non-owner member
who is not the assignee is answered `not_assignee` (403) with the store
unchanged, while the assignee or an owner gets the update applied — in
particular a requested status is written. -/
theorem C2_task_status_auth (st : St) (uid tid : String)
    (body : PatchTaskBody) (now : Int) (t : Task) (m : FocusMemberRec) :
    findTask st tid = some t →
    findMember st t.focus_id uid = some m →
    ((m.role ≠ .owner → t.assigned_to_user_id ≠ some uid →
        patchTaskHandler st uid tid true body now = (st, .error Errors.notAssignee)) ∧
     Errors.notAssignee.httpStatus = 403 ∧
     (m.role ≠ .owner → t.assigned_to_user_id = some uid →
        patchTaskHandler st uid tid true body now =
          (writeTask st (memberTaskUpdate t body now), .ok (memberTaskUpdate t body now)) ∧
        ∀ s, body.status = some s → (memberTaskUpdate t body now).status = s) ∧
     (m.role = .owner →
        patchTaskHandler st uid tid true body now =
          (writeTask st (ownerTaskUpdate t body now), .ok (ownerTaskUpdate t body now)) ∧
        ∀ s, body.status = some s → (ownerTaskUpdate t body now).status = s)) := by
  intro ht hm
  refine ⟨?_, rfl, ?_, ?_⟩
  · intro hr ha
    unfold patchTaskHandler
    simp [ht, hm, hr, ha]
  · intro hr ha
    constructor
    · unfold patchTaskHandler
      simp [ht, hm, hr, ha]
    · intro s hs
      unfold memberTaskUpdate
      simp [hs]
  · intro hr
    constructor
    · unfold patchTaskHandler
      simp [ht, hm, hr]
    · intro s hs
      unfold ownerTaskUpdate
      simp [hs]

/-- Concrete instantiation of `C2_task_status_auth`: the plain member `u2`
is the assignee of `t1` and an active-subscription status patch to `done`
is applied. -/
theorem C2_task_status_auth_witness :
    patchTaskHandler cexSt "u2" "t1" true { status := some .done } 5 =
      (writeTask cexSt
        (memberTaskUpdate (cexSt.tasks.get ⟨0, by decide⟩) { status := some .done } 5),
       .ok (memberTaskUpdate (cexSt.tasks.get ⟨0, by decide⟩) { status := some .done } 5)) ∧
    (memberTaskUpdate (cexSt.tasks.get ⟨0, by decide⟩) { status := some .done } 5).status
      = .done :=
  ⟨((C2_task_status_auth cexSt "u2" "t1" { status := some .done } 5
      (cexSt.tasks.get ⟨0, by decide⟩) ⟨"f1", "u2", .member⟩ rfl rfl).2.2.1
      (by decide) rfl).1,
   ((C2_task_status_auth cexSt "u2" "t1" { status := some .done } 5
      (cexSt.tasks.get ⟨0, by decide⟩) ⟨"f1", "u2", .member⟩ rfl rfl).2.2.1
      (by decide) rfl).2 .done rfl⟩

/-- C8: through either branch of `PATCH /tasks/:id`, a patch carrying a
status writes `completed_at := now` exactly when that status is `done`
(and `null` otherwise), and a patch without a status leaves
`completed_at` untouched. -/
theorem C8_completed_at_iff_done (st : St) (uid tid : String) (active : Bool)
    (body : PatchTaskBody) (now : Int) (t : Task) :
    findTask st tid = some t →
    ∀ u, (patchTaskHandler st uid tid active body now).2 = .ok u →
      (∀ s, body.status = some s →
        u.completed_at = (if s = .done then some now else none) ∧
        (u.completed_at ≠ none ↔ s = .done)) ∧
      (body.status = none → u.completed_at = t.completed_at) := by
  intro ht u hu
  have hbranch : u = memberTaskUpdate t body now ∨ u = ownerTaskUpdate t body now := by
    cases active with
    | false => unfold patchTaskHandler at hu; simp at hu
    | true =>
      cases hmem : findMember st t.focus_id uid with
      | none =>
        have hc : patchTaskHandler st uid tid true body now
            = (st, .error (Errors.forbidden)) := by
          unfold patchTaskHandler; simp [ht, hmem]
        rw [hc] at hu; simp at hu
      | some m =>
        by_cases hr : m.role = .owner
        · have hc : patchTaskHandler st uid tid true body now
              = (writeTask st (ownerTaskUpdate t body now),
                 .ok (ownerTaskUpdate t body now)) := by
            unfold patchTaskHandler; simp [ht, hmem, hr]
          rw [hc] at hu; simp at hu
          exact Or.inr hu.symm
        · by_cases ha : t.assigned_to_user_id = some uid
          · have hc : patchTaskHandler st uid tid true body now
                = (writeTask st (memberTaskUpdate t body now),
                   .ok (memberTaskUpdate t body now)) := by
              unfold patchTaskHandler; simp [ht, hmem, hr, ha]
            rw [hc] at hu; simp at hu
            exact Or.inl hu.symm
          · have hc : patchTaskHandler st uid tid true body now
                = (st, .error Errors.notAssignee) := by
              unfold patchTaskHandler; simp [ht, hmem, hr, ha]
            rw [hc] at hu; simp at hu
  have hcomp : ∀ s : TaskStatus,
      (((if s = TaskStatus.done then some now else none) ≠ none) ↔ s = TaskStatus.done) := by
    intro s
    by_cases hd : s = .done <;> simp [hd]
  rcases hbranch with h | h <;> subst h
  · refine ⟨fun s hs => ⟨?_, ?_⟩, fun hs => ?_⟩
    · unfold memberTaskUpdate; simp [hs]
    · unfold memberTaskUpdate; simp only [hs]
      exact hcomp s
    · unfold memberTaskUpdate; simp [hs]
  · refine ⟨fun s hs => ⟨?_, ?_⟩, fun hs => ?_⟩
    · unfold ownerTaskUpdate; simp [hs]
    · unfold ownerTaskUpdate; simp only [hs]
      exact hcomp s
    · unfold ownerTaskUpdate; simp [hs]

/-- Concrete instantiation of `C8_completed_at_iff_done`: the owner `u0`
patches `t1` to `in_progress` and `completed_at` is cleared. -/
theorem C8_completed_at_witness :
    ∃ u, (patchTaskHandler cexSt "u0" "t1" true { status := some .in_progress } 7).2
        = .ok u ∧ u.completed_at = none := by
  refine ⟨ownerTaskUpdate (cexSt.tasks.get ⟨0, by decide⟩)
    { status := some .in_progress } 7, rfl, ?_⟩
  have h := (C8_completed_at_iff_done cexSt "u0" "t1" true
      { status := some .in_progress } 7 (cexSt.tasks.get ⟨0, by decide⟩) rfl
      (ownerTaskUpdate (cexSt.tasks.get ⟨0, by decide⟩)
        { status := some .in_progress } 7) rfl).1 .in_progress rfl
  simpa using h.1

/-- C9: for a member's `GET /focuses/:id/tasks`, unless the `assigned`
query parameter is exactly the string `all`, every returned task is
assigned to the requesting user (so unassigned tasks and other members'
tasks are excluded by default), and truthy `status` / `priority`
parameters further restrict the result to matching tasks; all returned
tasks belong to the requested focus. -/
theorem C9_default_assignee_filter (st : St) (uid fid : String)
    (q : TaskQuery) (ts : List Task) :
    listTasksHandler st uid fid q = .ok ts →
    (∀ t ∈ ts, t.focus_id = fid) ∧
    (q.assigned ≠ some "all" → ∀ t ∈ ts, t.assigned_to_user_id = some uid) ∧
    (jsTruthy q.status = true → ∀ t ∈ ts, some t.status.str = q.status) ∧
    (jsTruthy q.priority = true → ∀ t ∈ ts, some t.priority.str = q.priority) := by
  intro h
  have hts : ts = st.tasks.filter (taskListPred fid uid q) := by
    unfold listTasksHandler at h
    cases hm : findMember st fid uid with
    | none => rw [hm] at h; simp at h
    | some m => rw [hm] at h; simpa using h.symm
  subst hts
  refine ⟨?_, ?_, ?_, ?_⟩
  · intro t ht
    have := (List.mem_filter.mp ht).2
    unfold taskListPred at this
    simp only [Bool.and_eq_true, decide_eq_true_eq] at this
    exact this.1.1.1
  · intro hq t ht
    have := (List.mem_filter.mp ht).2
    unfold taskListPred at this
    simp only [Bool.and_eq_true, Bool.or_eq_true, decide_eq_true_eq] at this
    rcases this.1.1.2 with h' | h'
    · exact absurd h' hq
    · exact h'
  · intro hq t ht
    have := (List.mem_filter.mp ht).2
    unfold taskListPred at this
    simp only [Bool.and_eq_true, Bool.or_eq_true, Bool.not_eq_true',
      decide_eq_true_eq] at this
    rcases this.1.2 with h' | h'
    · rw [hq] at h'; cases h'
    · exact h'
  · intro hq t ht
    have := (List.mem_filter.mp ht).2
    unfold taskListPred at this
    simp only [Bool.and_eq_true, Bool.or_eq_true, Bool.not_eq_true',
      decide_eq_true_eq] at this
    rcases this.2 with h' | h'
    · rw [hq] at h'; cases h'
    · exact h'

/-- Concrete instantiation of `C9_default_assignee_filter`: with no query
parameters, the member `u0` of `cexSt` sees no tasks (the only task of
`f1` is assigned to `u2`), consistently with the default filter. -/
theorem C9_default_assignee_filter_witness :
    listTasksHandler cexSt "u0" "f1" {} = .ok [] ∧
    (∀ t ∈ ([] : List Task), t.assigned_to_user_id = some "u0") :=
  ⟨rfl, (C9_default_assignee_filter cexSt "u0" "f1" {} [] rfl).2.1 (by decide)⟩

/-- If a focus has an assistant thread, the assistant-message guard can
never answer `missingThread` for it. -/
theorem gateNotMissingOfThread (st2 : St) (fid : String) (th : ThreadRec)
    (hth : findFirstThread st2 fid = some th) :
    ∀ uid' active', assistantMessageGate st2 uid' fid active' ≠ .missingThread := by
  intro uid' active'
  unfold assistantMessageGate
  cases active' with
  | false => simp
  | true =>
    simp only [Bool.not_true, Bool.false_eq_true, if_false]
    cases findMember st2 fid uid' with
    | none => simp
    | some m => rw [hth]; simp

/-- C10: `POST /focuses` (with fresh database-generated ids) creates the
focus together with exactly one member row — the creator as owner — and
exactly one assistant thread, and on the resulting store the
`missing_thread` branch of `POST /focuses/:id/assistant/message` can
never be taken for the new focus, whoever calls it. -/
theorem C10_create_focus_invariant (st : St) (uid : String) (active : Bool)
    (body : CreateFocusBody) (fid tid : String) (st' : St) (f : Focus) :
    (∀ m ∈ st.members, m.focus_id ≠ fid) →
    (∀ th ∈ st.threads, th.focus_id ≠ fid) →
    createFocusHandler st uid active body fid tid = (st', .ok f) →
    f.id = fid ∧
    st'.members.filter (fun m => m.focus_id = fid) = [⟨fid, uid, .owner⟩] ∧
    st'.threads.filter (fun th => th.focus_id = fid) = [⟨tid, fid⟩] ∧
    (∀ uid' active', assistantMessageGate st' uid' fid active' ≠ .missingThread) := by
  intro hmfresh hthfresh hc
  unfold createFocusHandler at hc
  cases active with
  | false => simp at hc
  | true =>
    simp only [Bool.not_true, Bool.false_eq_true, if_false, Prod.mk.injEq] at hc
    obtain ⟨hst, hf⟩ := hc
    have hf' : f.id = fid := by
      rw [← Except.ok.inj hf]
    subst hst
    have hmnil : st.members.filter (fun m => m.focus_id = fid) = [] :=
      List.filter_eq_nil_iff.mpr (by intro m hm; simpa using hmfresh m hm)
    have hthnil : st.threads.filter (fun th => th.focus_id = fid) = [] :=
      List.filter_eq_nil_iff.mpr (by intro th hth; simpa using hthfresh th hth)
    refine ⟨hf', ?_, ?_, ?_⟩
    · simp [List.filter_cons, hmnil]
    · simp [List.filter_cons, hthnil]
    · intro uid' active'
      exact gateNotMissingOfThread _ fid ⟨tid, fid⟩
        (by unfold findFirstThread; simp [List.find?]) uid' active'

/-- Concrete instantiation of `C10_create_focus_invariant` on an empty
store. -/
theorem C10_create_focus_witness :
    ∃ st' f, createFocusHandler ⟨[], [], [], []⟩ "u9" true { title := "New" } "f9" "th9"
        = (st', .ok f) ∧
      st'.members.filter (fun m => m.focus_id = "f9") = [⟨"f9", "u9", .owner⟩] ∧
      (∀ uid' active', assistantMessageGate st' uid' "f9" active' ≠ .missingThread) := by
  refine ⟨_, _, rfl, ?_, ?_⟩
  · exact (C10_create_focus_invariant ⟨[], [], [], []⟩ "u9" true { title := "New" }
      "f9" "th9" _ _ (by simp) (by simp) rfl).2.1
  · exact (C10_create_focus_invariant ⟨[], [], [], []⟩ "u9" true { title := "New" }
      "f9" "th9" _ _ (by simp) (by simp) rfl).2.2.2

/-- C5: both cron jobs scan only tasks with an assignee and a status
neither `done` nor `canceled`; the deadline job selects exactly those such
tasks with a due date between `DEADLINE_REMINDER_DAYS - 1` and
`DEADLINE_REMINDER_DAYS + 1` days from now (inclusive; the env default is
1), the overdue job exactly those whose due date is strictly in the past,
and each job messages exactly the selected tasks whose assignee has a
`tg_id`; the jobs run on the `0 9 * * *` and `0 10 * * *` schedules. -/
theorem C5_cron_selection (now days : Int) (t : WTask) (tasks : List WTask) :
    (deadlineSelect now days t = true ↔
      ((∃ u, t.assigned_to = some u) ∧ t.status ≠ .done ∧ t.status ≠ .canceled ∧
        ∃ d, t.due_at = some d ∧ now + (days - 1) * msPerDay ≤ d ∧
          d ≤ now + (days + 1) * msPerDay)) ∧
    (overdueSelect now t = true ↔
      ((∃ u, t.assigned_to = some u) ∧ t.status ≠ .done ∧ t.status ≠ .canceled ∧
        ∃ d, t.due_at = some d ∧ d < now)) ∧
    deadlineDays none = 1 ∧
    (t ∈ deadlineMessaged now days tasks ↔
      (t ∈ tasks ∧ deadlineSelect now days t = true ∧ hasTg t = true)) ∧
    (t ∈ overdueMessaged now tasks ↔
      (t ∈ tasks ∧ overdueSelect now t = true ∧ hasTg t = true)) ∧
    deadlineCronExpr = "0 9 * * *" ∧ overdueCronExpr = "0 10 * * *" := by
  refine ⟨?_, ?_, rfl, ?_, ?_, rfl, rfl⟩
  · unfold deadlineSelect
    cases hd : t.due_at with
    | none =>
      simp only [Bool.false_and, Bool.false_eq_true, false_iff]
      rintro ⟨-, -, -, d, hd', -⟩
      cases hd'
    | some d =>
      simp only [Bool.and_eq_true, decide_eq_true_eq, Bool.not_eq_true',
        Bool.or_eq_false_iff, decide_eq_false_iff_not, Option.isSome_iff_exists]
      constructor
      · rintro ⟨⟨⟨h1, h2⟩, ⟨h3, h4⟩⟩, u, h5⟩
        exact ⟨⟨u, h5⟩, h3, h4, d, rfl, h1, h2⟩
      · rintro ⟨⟨u, h5⟩, h3, h4, d', hd', h1, h2⟩
        cases hd'
        exact ⟨⟨⟨h1, h2⟩, ⟨h3, h4⟩⟩, u, h5⟩
  · unfold overdueSelect
    cases hd : t.due_at with
    | none =>
      simp only [Bool.false_and, Bool.false_eq_true, false_iff]
      rintro ⟨-, -, -, d, hd', -⟩
      cases hd'
    | some d =>
      simp only [Bool.and_eq_true, decide_eq_true_eq, Bool.not_eq_true',
        Bool.or_eq_false_iff, decide_eq_false_iff_not, Option.isSome_iff_exists]
      constructor
      · rintro ⟨⟨h1, h3, h4⟩, u, h5⟩
        exact ⟨⟨u, h5⟩, h3, h4, d, rfl, h1⟩
      · rintro ⟨⟨u, h5⟩, h3, h4, d', hd', h1⟩
        cases hd'
        exact ⟨⟨h1, h3, h4⟩, u, h5⟩
  · unfold deadlineMessaged
    simp only [List.mem_filter, and_assoc]
  · unfold overdueMessaged
    simp only [List.mem_filter, and_assoc]

/-- C6: the notification worker sends the Telegram message and, when the
job carries a (truthy) `user_id`, rewrites exactly that user's queued
rows of the job's type: to `sent` with a `sent_at` timestamp on success,
to `failed` with the error message — rethrowing the error — on failure;
rows of other users, other types or other statuses are untouched. -/
theorem C6_notification_processing (job : NotifJob) (logs : List NotifLog)
    (now : Int) (errMsg uid : String) :
    job.user_id = some uid → uid ≠ "" →
    ((processNotificationJob none now job logs).2 = .ok () ∧
     (processNotificationJob none now job logs).1 =
       logs.map (fun l =>
         if l.user_id = uid ∧ l.status = "queued" ∧ l.type = job.type
         then { l with status := "sent", sent_at := some now } else l)) ∧
    ((processNotificationJob (some errMsg) now job logs).2 = .error errMsg ∧
     (processNotificationJob (some errMsg) now job logs).1 =
       logs.map (fun l =>
         if l.user_id = uid ∧ l.status = "queued" ∧ l.type = job.type
         then { l with status := "failed", error := some errMsg } else l)) := by
  intro hu hne
  have htruthy : jsTruthy job.user_id = true := by
    rw [hu]; unfold jsTruthy; simpa using hne
  have hget : job.user_id.getD "" = uid := by rw [hu]; rfl
  have hmap : ∀ f : NotifLog → NotifLog,
      updateQueuedLogs logs uid job.type f =
        logs.map (fun l =>
          if l.user_id = uid ∧ l.status = "queued" ∧ l.type = job.type
          then f l else l) := by
    intro f
    unfold updateQueuedLogs
    refine List.map_congr_left ?_
    intro l _
    by_cases h : l.user_id = uid ∧ l.status = "queued" ∧ l.type = job.type
    · rw [if_pos h]
      rw [if_pos]
      simp [h.1, h.2.1, h.2.2]
    · rw [if_neg h]
      rw [if_neg]
      simp only [Bool.and_eq_true, decide_eq_true_eq]
      tauto
  constructor
  · constructor
    · unfold processNotificationJob
      simp [htruthy]
    · unfold processNotificationJob
      simp only [htruthy, if_true, hget]
      exact hmap _
  · constructor
    · unfold processNotificationJob
      simp [htruthy]
    · unfold processNotificationJob
      simp only [htruthy, if_true, hget]
      exact hmap _

/-- Concrete instantiation of `C6_notification_processing`: a queued
`deadline_reminder` row of user `u2` is marked sent on success, while a
row of another user is untouched. -/
theorem C6_notification_witness :
    (processNotificationJob none 50
        { tg_id := "42", text := "hi", type := "deadline_reminder", user_id := some "u2" }
        [⟨"n1", "u2", "deadline_reminder", "queued", none, none⟩,
         ⟨"n2", "u3", "deadline_reminder", "queued", none, none⟩]).1 =
      [⟨"n1", "u2", "deadline_reminder", "sent", some 50, none⟩,
       ⟨"n2", "u3", "deadline_reminder", "queued", none, none⟩] := by
  have h := (C6_notification_processing
    { tg_id := "42", text := "hi", type := "deadline_reminder", user_id := some "u2" }
    [⟨"n1", "u2", "deadline_reminder", "queued", none, none⟩,
     ⟨"n2", "u3", "deadline_reminder", "queued", none, none⟩]
    50 "ignored" "u2" rfl (by decide)).1.2
  rw [h]
  decide

/-- C7: `toggleTask` first sets the toggled task's status optimistically —
`done` becomes `todo` and anything else becomes `done` — and only the
toggled id is touched; on API success the toggled entries are replaced by
the server's task; on API failure the toggled entries are restored to the
captured pre-toggle value, so a list whose entry for that id was the
toggled task itself is restored exactly. -/
theorem C7_optimistic_toggle (tasks : List WebTask) (t : WebTask)
    (updated : WebTask) (err : String) :
    (t.status = "done" → toggleNext t = "todo") ∧
    (t.status ≠ "done" → toggleNext t = "done") ∧
    (∀ r, (toggleTaskFlow tasks t r).1 = optimisticToggle tasks t) ∧
    (∀ x ∈ optimisticToggle tasks t, x.id = t.id → x.status = toggleNext t) ∧
    (∀ x ∈ optimisticToggle tasks t, x.id ≠ t.id → x ∈ tasks) ∧
    ((toggleTaskFlow tasks t (.ok updated)).2 =
      (optimisticToggle tasks t).map fun x => if x.id = t.id then updated else x) ∧
    ((toggleTaskFlow tasks t (.error err)).2 =
      tasks.map fun x => if x.id = t.id then t else x) ∧
    ((∀ x ∈ tasks, x.id = t.id → x = t) →
      (toggleTaskFlow tasks t (.error err)).2 = tasks) := by
  have hroll : (toggleTaskFlow tasks t (.error err)).2 =
      tasks.map fun x => if x.id = t.id then t else x := by
    show rollbackToggle (optimisticToggle tasks t) t = _
    unfold rollbackToggle optimisticToggle
    rw [List.map_map]
    refine List.map_congr_left ?_
    intro x _
    by_cases h : x.id = t.id
    · simp [h]
    · simp [h]
  refine ⟨fun h => by unfold toggleNext; rw [if_pos h],
    fun h => by unfold toggleNext; rw [if_neg h],
    fun r => by cases r <;> rfl,
    ?_, ?_, rfl, hroll, ?_⟩
  · intro x hx hid
    unfold optimisticToggle at hx
    obtain ⟨y, hy, hxy⟩ := List.mem_map.mp hx
    by_cases h : y.id = t.id
    · rw [if_pos h] at hxy
      rw [← hxy]
    · rw [if_neg h] at hxy
      rw [← hxy] at hid
      exact absurd hid h
  · intro x hx hid
    unfold optimisticToggle at hx
    obtain ⟨y, hy, hxy⟩ := List.mem_map.mp hx
    by_cases h : y.id = t.id
    · rw [if_pos h] at hxy
      rw [← hxy] at hid
      exact absurd h hid
    · rw [if_neg h] at hxy
      rw [← hxy]
      exact hy
  · intro hall
    rw [hroll]
    conv_rhs => rw [← List.map_id tasks]
    refine List.map_congr_left ?_
    intro x hx
    by_cases h : x.id = t.id
    · rw [if_pos h, (hall x hx h).symm]
      rfl
    · rw [if_neg h]
      rfl

/-- Concrete instantiation of `C7_optimistic_toggle`: toggling a `todo`
task shows `done` optimistically and a failed API call restores the
original list. -/
theorem C7_optimistic_toggle_witness :
    optimisticToggle [⟨"t1", "todo", ""⟩] ⟨"t1", "todo", ""⟩ = [⟨"t1", "done", ""⟩] ∧
    (toggleTaskFlow [⟨"t1", "todo", ""⟩] ⟨"t1", "todo", ""⟩ (.error "boom")).2 =
      [⟨"t1", "todo", ""⟩] :=
  ⟨rfl, (C7_optimistic_toggle [⟨"t1", "todo", ""⟩] ⟨"t1", "todo", ""⟩
      ⟨"t1", "done", ""⟩ "boom").2.2.2.2.2.2.2 (by decide)⟩

/-- C4, as stated, is false at the empty response string: `JSON.parse('')`
throws, the cleaned text is again empty, and the fallback
`content || 'Не удалось…'` replaces the empty raw text with the fixed
placeholder, so the reply is NOT the raw response text. -/
theorem C4_counterexample :
    jsonParse "" = none ∧ cleanFences "" = "" ∧
    (aiResponseOfContent jsonParse "").reply = fallbackReplyText ∧
    (aiResponseOfContent jsonParse "").reply ≠ "" := by
  refine ⟨rfl, rfl, rfl, by decide⟩

/-- C4 (amended): for any JSON parser and any assistant content, the
gateway first tries the direct parse and keeps its value; on failure it
re-parses the fence-cleaned text (trim, strip leading ```` ```json ````
or ```` ``` ````, strip trailing ```` ``` ````, trim); if the retry also
fails, or the parsed value has no string `reply` field, the raw response
text is used as the reply — with a fixed placeholder replacing an empty
raw text — and no tasks or follow-up questions are returned. -/
theorem C4_json_extraction (parse : String → Option JsValue) (content : String) :
    (∀ v, parse content = some v → safeJsonParseWith parse content = some v) ∧
    (parse content = none →
      safeJsonParseWith parse content = parse (cleanFences content)) ∧
    (safeJsonParseWith parse content = none →
      aiResponseOfContent parse content =
        { reply := if content = "" then fallbackReplyText else content,
          tasks := none, followup_questions := none }) ∧
    (∀ v, safeJsonParseWith parse content = some v →
      (∀ r, v.getField "reply" = some (.jstr r) →
        (aiResponseOfContent parse content).reply = r) ∧
      ((∀ r, v.getField "reply" ≠ some (.jstr r)) →
        aiResponseOfContent parse content =
          { reply := if content = "" then fallbackReplyText else content,
            tasks := none, followup_questions := none })) := by
  refine ⟨?_, ?_, ?_, ?_⟩
  · intro v h
    unfold safeJsonParseWith
    rw [h]
  · intro h
    unfold safeJsonParseWith
    rw [h]
  · intro h
    unfold aiResponseOfContent
    rw [h]
    rfl
  · intro v h
    have hrw : aiResponseOfContent parse content = aiOfParsed content (some v) := by
      unfold aiResponseOfContent; rw [h]
    rw [hrw]
    simp only [aiOfParsed]
    cases hg : v.getField "reply" with
    | none => exact ⟨fun r hr => (nomatch hr), fun _ => rfl⟩
    | some w =>
      cases w with
      | jstr r0 =>
        refine ⟨fun r hr => ?_, fun hall => absurd rfl (hall r0)⟩
        cases hr
        rfl
      | jnull => exact ⟨fun r hr => (nomatch hr), fun _ => rfl⟩
      | jbool b => exact ⟨fun r hr => (nomatch hr), fun _ => rfl⟩
      | jnum x => exact ⟨fun r hr => (nomatch hr), fun _ => rfl⟩
      | jarr xs => exact ⟨fun r hr => (nomatch hr), fun _ => rfl⟩
      | jobj fs => exact ⟨fun r hr => (nomatch hr), fun _ => rfl⟩

/-- A model reply wrapped in a markdown code fence, as the prompt warns
the model sometimes does. -/
def fencedSample : String :=
  "```json\n\x7b\"reply\": \"ok\", \"tasks\": [true]\x7d\n```"

/-- Concrete instantiation of `C4_json_extraction`: the fenced sample
fails the direct parse, succeeds after cleaning with reply `ok`, and an
unparsable non-empty text falls back to itself as the reply. -/
theorem C4_json_extraction_witness :
    jsonParse fencedSample = none ∧
    safeJsonParseWith jsonParse fencedSample = jsonParse (cleanFences fencedSample) ∧
    (aiResponseOfContent jsonParse fencedSample).reply = "ok" ∧
    (aiResponseOfContent jsonParse "oops").reply = "oops" := by
  refine ⟨rfl, (C4_json_extraction jsonParse fencedSample).2.1 rfl, ?_, ?_⟩
  · exact ((C4_json_extraction jsonParse fencedSample).2.2.2
      (.jobj [("reply", .jstr "ok"), ("tasks", .jarr [.jbool true])]) rfl).1 "ok" rfl
  · have h := (C4_json_extraction jsonParse "oops").2.2.1 rfl
    rw [h]
    rfl

end MiniMaks
